import Mathlib

/-!
Shallow embedding of the domain-modeling toolkit's event-sourcing core:
value objects with deferred validation, entities with identity equality and
capability attachment, domain events with a commit flag, the aggregate-root
event ledger, and the event bus router.  Each definition is translated from
the corresponding TypeScript source file; external collaborators (the guard
package's emptiness checks) are modelled from the spec where noted.
-/

namespace DDD

/-- Exception kinds from the exceptions-base package used by the core:
"argument not provided", "argument invalid" and "argument out of range",
each carrying its message.  `typeErr` models the JavaScript `TypeError`
raised when a property of `undefined` is accessed. -/
inductive JsError where
  | argumentNotProvided (msg : String)
  | argumentInvalid (msg : String)
  | argumentOutOfRange (msg : String)
  | typeErr (msg : String)
  deriving DecidableEq, Repr

/-- Modelled from the spec: the external guard package's emptiness check on a
string — the empty string counts as empty ("empty/missing required input"). -/
def guardIsEmptyString (s : String) : Bool := s == ""

/-- Properties of a value object (`ValueObjectProps<T>`): either a domain
primitive (an object with a single `value` field wrapping a scalar, here a
string) or a composite of named plain fields. -/
inductive VOProps where
  | domainPrimitive (value : String)
  | composite (fields : List (String × String))
  deriving DecidableEq, Repr

/-- The result of unpacking a value object: the raw scalar for a
primitive-wrapped object, or the frozen plain projection of a composite. -/
inductive Unpacked where
  | prim (s : String)
  | obj (fields : List (String × String))
  deriving DecidableEq, Repr

/-- `ValueObject.isDomainPrimitive`: does the props object have a `value`
field? -/
def isDomainPrimitiveProps : VOProps → Bool
  | .domainPrimitive _ => true
  | .composite _ => false

/-- The `value` field of a domain-primitive props object, when present. -/
def domainPrimitiveValue : VOProps → Option String
  | .domainPrimitive v => some v
  | .composite _ => none

/-- Modelled from the spec: the guard package's emptiness check on a
value-object props object.  A primitive-wrapped props object always carries
its `value` key, so it is itself non-empty; a composite is empty exactly
when it has no fields. -/
def guardIsEmptyVOProps : VOProps → Bool
  | .domainPrimitive _ => false
  | .composite fields => fields.isEmpty

/-- `ValueObject.checkIfEmpty`: adds an `ArgumentNotProvidedException` when
the props are empty, or when a domain-primitive props object wraps an empty
`value`. -/
def ValueObject.checkIfEmpty (props : VOProps) : List JsError :=
  if guardIsEmptyVOProps props
      || (isDomainPrimitiveProps props
            && guardIsEmptyString ((domainPrimitiveValue props).getD "")) then
    [.argumentNotProvided "Properties cannot be empty"]
  else []

/-- The state of a `ValueObject<T>` after construction: the accumulated
validation errors and the stored props. -/
structure ValueObjectM where
  errors : List JsError
  props : VOProps
  deriving DecidableEq, Repr

/-- The `ValueObject` constructor: runs `checkIfEmpty` and then the subclass
`validate` hook (passed here as a function, since the method is abstract),
accumulating the errors of both, and stores the props. -/
def ValueObject.create (validateHook : VOProps → List JsError)
    (props : VOProps) : ValueObjectM :=
  { errors := ValueObject.checkIfEmpty props ++ validateHook props
    props := props }

/-- `ValueObject.internalUnpack`: the raw scalar for a primitive-wrapped
object, the frozen plain projection for a composite. -/
def ValueObjectM.internalUnpack (vo : ValueObjectM) : Unpacked :=
  match vo.props with
  | .domainPrimitive v => .prim v
  | .composite fields => .obj fields

/-- `ValueObject.forceUnpack`: throws the accumulated error list when any
error exists, otherwise returns the unpacked value. -/
def ValueObjectM.forceUnpack (vo : ValueObjectM) :
    Except (List JsError) Unpacked :=
  if vo.errors.length > 0 then .error vo.errors else .ok vo.internalUnpack

/-- `ValueObject.isValid`: false when any accumulated error exists. -/
def ValueObjectM.isValid (vo : ValueObjectM) : Bool :=
  if vo.errors.length > 0 then false else true

/-- A domain event (`DomainEvent`): unique event identifier, a runtime class
tag standing for the event's constructor (used by the `instanceof` test in
`loadsFromHistory`), the owning aggregate's identifier as unpacked at
construction, and the `committed` flag, `false` by default. -/
structure DomainEvent where
  id : Nat
  eventType : Nat
  aggregateId : Unpacked
  committed : Bool := false
  deriving DecidableEq, Repr

/-- `DomainEvent.isCommitted`: a pure query of the `committed` flag. -/
def DomainEvent.isCommitted (e : DomainEvent) : Bool := e.committed

/-- `DomainEvent.commit`: marks the event as committed. -/
def DomainEvent.commit (e : DomainEvent) : DomainEvent :=
  { e with committed := true }

/-- The properties bag handed to the `DomainEvent` constructor: the owning
aggregate's identifier value object, optional metadata, and the names of the
subclass payload fields that are present. -/
structure DomainEventBag where
  aggregateId : Option ValueObjectM
  metadata : Option (List (String × String))
  payloadKeys : List String
  deriving Repr

/-- Modelled from the spec: the guard package's emptiness check on the event
properties bag — the bag is empty when it carries no keys at all. -/
def DomainEventBag.isEmptyBag (b : DomainEventBag) : Bool :=
  b.aggregateId.isNone && b.metadata.isNone && b.payloadKeys.isEmpty

/-- What construction of a domain event can throw: a single exception
object, or (via `forceUnpack` of the aggregate identifier) the thrown array
of accumulated validation errors. -/
inductive EventCreateErr where
  | single (e : JsError)
  | errorList (errs : List JsError)
  deriving DecidableEq, Repr

/-- The `DomainEvent` constructor: throws `ArgumentNotProvidedException`
synchronously when the properties bag is empty; otherwise unpacks the
aggregate identifier (`props.aggregateId.forceUnpack()`, which itself throws
the identifier's accumulated errors when it is invalid) and builds the
event with `committed = false`.  `className` is `this.constructor.name`. -/
def DomainEvent.create (className : String) (eventId eventType : Nat)
    (bag : DomainEventBag) : Except EventCreateErr DomainEvent :=
  if bag.isEmptyBag then
    .error (.single (.argumentNotProvided
      (className ++ " props should not be empty")))
  else
    match bag.aggregateId with
    | none => .error (.single (.typeErr
        "Cannot read properties of undefined (reading forceUnpack)"))
    | some vo =>
      match vo.forceUnpack with
      | .error errs => .error (.errorList errs)
      | .ok u => .ok { id := eventId, eventType := eventType,
                       aggregateId := u, committed := false }

/-- A reference to an `Id` value object: `ref` is the JavaScript object
identity (two id references are `===` exactly when their `ref`s agree) and
`value` is the wrapped string. -/
structure IdRef where
  ref : Nat
  value : String
  deriving DecidableEq, Repr

/-- The state of an `Entity<EntityProps>` after construction: identifier,
accumulated validation errors, the two lifecycle timestamps and the props. -/
structure EntityM (P : Type) where
  id : IdRef
  errors : List JsError
  createdAt : Nat
  updatedAt : Nat
  props : P

/-- A JavaScript value passed as entity props: an object with its list of
own enumerable keys, or a non-object value (modelled by a string, whose
`Object.keys` are its character indices). -/
inductive JsProps where
  | obj (keys : List String)
  | str (s : String)
  deriving DecidableEq, Repr

/-- Modelled from the spec: the guard package's emptiness check on entity
props — an object with no keys, or an empty string, is empty. -/
def guardIsEmptyProps : JsProps → Bool
  | .obj keys => keys.isEmpty
  | .str s => s == ""

/-- `typeof props === "object"`. -/
def typeofIsObject : JsProps → Bool
  | .obj _ => true
  | .str _ => false

/-- `Object.keys(props).length`. -/
def objectKeysLength : JsProps → Nat
  | .obj keys => keys.length
  | .str s => s.length

/-- `MAX_PROPS`: the bound on the number of top-level entity properties. -/
def MAX_PROPS : Nat := 50

/-- `Entity.validateProps`: appends an `ArgumentNotProvidedException` when
the props are empty, an `ArgumentInvalidException` when they are not an
object, and an `ArgumentOutOfRangeException` when they have more than
`MAX_PROPS` properties, in that order. -/
def Entity.validateProps (props : JsProps) : List JsError :=
  (if guardIsEmptyProps props then
      [.argumentNotProvided "Entity props should not be empty"]
    else [])
  ++ (if typeofIsObject props then []
      else [.argumentInvalid "Entity props should be an object"])
  ++ (if objectKeysLength props > MAX_PROPS then
      [.argumentOutOfRange
        "Entity props should not have more than 50 properties"]
    else [])

/-- The `Entity` constructor for dynamically-typed props: sets the id, runs
`validateProps`, defaults each missing timestamp to `now`, stores the props
and runs the subclass `validate` hook (its accumulated errors are passed
here as a list, since the method is abstract). -/
def Entity.create (validateHookErrors : List JsError) (id : IdRef)
    (props : JsProps) (createdAtOpt updatedAtOpt : Option Nat)
    (now : Nat) : EntityM JsProps :=
  { id := id
    errors := Entity.validateProps props ++ validateHookErrors
    createdAt := createdAtOpt.getD now
    updatedAt := updatedAtOpt.getD now
    props := props }

/-- `Entity.isValid`: false when any accumulated error exists; when true,
the valid-entity capabilities are attached. -/
def EntityM.isValid {P : Type} (e : EntityM P) : Bool :=
  if e.errors.length > 0 then false else true

/-- `Entity.internalEquals`: true iff the argument is neither `null` nor
`undefined` (both modelled by `none`) and `this.id === object.id`, which for
the two id value objects is reference equality. -/
def EntityM.internalEquals {P : Type} (e : EntityM P)
    (other : Option (EntityM P)) : Bool :=
  match other with
  | none => false
  | some o => e.id.ref == o.id.ref

/-- The capabilities `addValidEntityAttributes` attaches to a valid entity:
`equals`, `getPropsCopy` and `toObject` (the latter two return the frozen
combination of id, timestamps and props; the recursive primitive conversion
is out of scope here). -/
structure ValidEntityCaps (P : Type) where
  equals : Option (EntityM P) → Bool
  getPropsCopy : IdRef × Nat × Nat × P
  toObject : IdRef × Nat × Nat × P

/-- The capabilities available on an entity: `some` (attached by
`addValidEntityAttributes` via `isValid`) exactly when no accumulated error
exists, `none` otherwise — an invalid entity's caller cannot call
`equals`/`getPropsCopy`/`toObject`. -/
def EntityM.validCapabilities {P : Type} (e : EntityM P) :
    Option (ValidEntityCaps P) :=
  if e.errors.length > 0 then none
  else some { equals := e.internalEquals
              getPropsCopy := (e.id, e.createdAt, e.updatedAt, e.props)
              toObject := (e.id, e.createdAt, e.updatedAt, e.props) }

/-- The state of an `AggregateRoot<EntityProps>`: the entity state plus the
`version` counter (field initializer `0`) and the internal ledger of
uncommitted domain events (field initializer `[]`). -/
structure AggregateRoot (P : Type) extends EntityM P where
  version : Nat := 0
  domainEvents : List DomainEvent := []

/-- An aggregate as produced by the `Entity` constructor together with the
`AggregateRoot` field initializers `version = 0` and `_domainEvents = []`.
`propsErrors` stands for the errors accumulated on the (dynamically typed)
props by `validateProps` and the subclass `validate` hook. -/
def AggregateRoot.fresh {P : Type} (propsErrors : List JsError) (id : IdRef)
    (props : P) (createdAtOpt updatedAtOpt : Option Nat) (now : Nat) :
    AggregateRoot P :=
  { id := id
    errors := propsErrors
    createdAt := createdAtOpt.getD now
    updatedAt := updatedAtOpt.getD now
    props := props
    version := 0
    domainEvents := [] }

/-- `AggregateRoot.pullDomainEvents`: returns a copy (`slice()`) of the
ledger and clears the internal ledger. -/
def AggregateRoot.pullDomainEvents {P : Type} (a : AggregateRoot P) :
    List DomainEvent × AggregateRoot P :=
  (a.domainEvents, { a with domainEvents := [] })

/-- `AggregateRoot.commitEvents`: calls `commit()` on every event currently
in the ledger, clearing nothing. -/
def AggregateRoot.commitEvents {P : Type} (a : AggregateRoot P) :
    AggregateRoot P :=
  { a with domainEvents := a.domainEvents.map DomainEvent.commit }

/-- `AggregateRoot.clearEvents`: drops the ledger. -/
def AggregateRoot.clearEvents {P : Type} (a : AggregateRoot P) :
    AggregateRoot P :=
  { a with domainEvents := [] }

/-- `AggregateRoot.publishEvents`: for every event in the ledger, logs a
debug message (modelled by the event id), calls `commit()` on the event and
dispatches it to the event bus (the middle component is the list of events
the bus receives, in ledger order); after all dispatches, clears the
ledger. -/
def AggregateRoot.publishEvents {P : Type} (a : AggregateRoot P) :
    List Nat × List DomainEvent × AggregateRoot P :=
  (a.domainEvents.map (fun e => e.id),
   a.domainEvents.map DomainEvent.commit,
   a.clearEvents)

/-- `AggregateRoot.applyInternalEventChanges`: invokes the subclass `apply`
hook on the current props, and appends the event to the ledger only when
`isNew` is true. -/
def AggregateRoot.applyInternalEventChanges {P : Type}
    (applyHook : P → DomainEvent → P) (a : AggregateRoot P)
    (event : DomainEvent) (isNew : Bool) : AggregateRoot P :=
  let a' := { a with props := applyHook a.props event }
  if isNew then { a' with domainEvents := a'.domainEvents ++ [event] }
  else a'

/-- `AggregateRoot.applyChange`: applies the event and appends it to the
ledger (`isNew = true`). -/
def AggregateRoot.applyChange {P : Type} (applyHook : P → DomainEvent → P)
    (a : AggregateRoot P) (event : DomainEvent) : AggregateRoot P :=
  a.applyInternalEventChanges applyHook event true

/-- `AggregateRoot.loadsFromHistory`: iterates the history in stream order,
skips every event that is an instance of the creation event type (the
`instanceof` test is passed as a predicate), and applies each other event
without appending (`isNew = false`). -/
def AggregateRoot.loadsFromHistory {P : Type} (applyHook : P → DomainEvent → P)
    (a : AggregateRoot P) (history : List DomainEvent)
    (instOfCreation : DomainEvent → Bool) : AggregateRoot P :=
  history.foldl (fun acc e =>
    if instOfCreation e then acc
    else acc.applyInternalEventChanges applyHook e false) a

/-- The two downstream buses of `EventBusRouter`, each modelled by the list
of events dispatched to it so far, in dispatch order. -/
structure RouterBuses where
  uncommitted : List DomainEvent
  committed : List DomainEvent
  deriving DecidableEq, Repr

/-- `EventBusRouter.route`: dispatches the event to the committed-events bus
when `isCommitted()` is true, and to the uncommitted-events bus otherwise. -/
def EventBusRouter.route (buses : RouterBuses) (e : DomainEvent) :
    RouterBuses :=
  if e.isCommitted then { buses with committed := buses.committed ++ [e] }
  else { buses with uncommitted := buses.uncommitted ++ [e] }

/-- One operation of the event-sourcing core on an aggregate, for frame
reasoning over arbitrary operation sequences. -/
inductive AggOp (P : Type) where
  | applyChangeOp (hook : P → DomainEvent → P) (e : DomainEvent)
  | loadsFromHistoryOp (hook : P → DomainEvent → P)
      (history : List DomainEvent) (instOfCreation : DomainEvent → Bool)
  | pullOp
  | commitOp
  | clearOp
  | publishOp

/-- Run one core operation on the aggregate, keeping the aggregate state it
leaves behind. -/
def AggregateRoot.runOp {P : Type} (a : AggregateRoot P) :
    AggOp P → AggregateRoot P
  | .applyChangeOp hook e => a.applyChange hook e
  | .loadsFromHistoryOp hook history c => a.loadsFromHistory hook history c
  | .pullOp => a.pullDomainEvents.2
  | .commitOp => a.commitEvents
  | .clearOp => a.clearEvents
  | .publishOp => a.publishEvents.2.2

/-- Run a sequence of core operations on the aggregate. -/
def AggregateRoot.runOps {P : Type} (a : AggregateRoot P)
    (ops : List (AggOp P)) : AggregateRoot P :=
  ops.foldl AggregateRoot.runOp a

/-! Helper lemmas shared by the claim theorems. -/

/-- Unfolding one step of the replay loop. -/
theorem loadsFromHistory_cons {P : Type} (hook : P → DomainEvent → P)
    (a : AggregateRoot P) (e : DomainEvent) (rest : List DomainEvent)
    (c : DomainEvent → Bool) :
    a.loadsFromHistory hook (e :: rest) c
      = (if c e then a else a.applyInternalEventChanges hook e false
          ).loadsFromHistory hook rest c := by
  by_cases hc : c e = true <;>
    simp [AggregateRoot.loadsFromHistory, List.foldl_cons, hc]

/-- Characterization of replay: `loadsFromHistory` only folds the `apply`
hook over the non-creation events; everything else, the ledger included, is
untouched. -/
theorem loadsFromHistory_eq {P : Type} (hook : P → DomainEvent → P)
    (c : DomainEvent → Bool) :
    ∀ (history : List DomainEvent) (a : AggregateRoot P),
    a.loadsFromHistory hook history c
      = { a with props :=
            (history.filter (fun e => !(c e))).foldl hook a.props } := by
  intro history
  induction history with
  | nil => intro a; rfl
  | cons e rest ih =>
    intro a
    rw [loadsFromHistory_cons]
    by_cases hc : c e = true
    · rw [if_pos hc, ih]
      simp [hc]
    · simp only [Bool.not_eq_true] at hc
      rw [if_neg (by simp [hc]), ih]
      simp [hc, AggregateRoot.applyInternalEventChanges]

/-- Every core operation leaves `version` unchanged. -/
theorem runOp_version {P : Type} (a : AggregateRoot P) (op : AggOp P) :
    (a.runOp op).version = a.version := by
  cases op with
  | applyChangeOp hook e =>
    simp [AggregateRoot.runOp, AggregateRoot.applyChange,
      AggregateRoot.applyInternalEventChanges]
  | loadsFromHistoryOp hook history c =>
    simp [AggregateRoot.runOp, loadsFromHistory_eq]
  | pullOp => rfl
  | commitOp => rfl
  | clearOp => rfl
  | publishOp => rfl

/-! The claim theorems. -/

/-- C1: for every aggregate and domain event `e`, `applyChange(e)` appends
`e` to the uncommitted-events ledger; a following `pullDomainEvents()`
returns the ledger in insertion order ending with `e` and clears the
internal ledger, so an immediately following second pull returns `[]`; for
a fresh aggregate with one `applyChange(e)`, the first pull returns exactly
`[e]`. -/
theorem applyChange_pull_spec {P : Type} (hook : P → DomainEvent → P)
    (a : AggregateRoot P) (e : DomainEvent) :
    (a.applyChange hook e).domainEvents = a.domainEvents ++ [e]
    ∧ (a.applyChange hook e).pullDomainEvents.1 = a.domainEvents ++ [e]
    ∧ ((a.applyChange hook e).pullDomainEvents).2.pullDomainEvents.1 = []
    ∧ (a.domainEvents = [] →
        (a.applyChange hook e).pullDomainEvents.1 = [e]) := by
  refine ⟨rfl, rfl, rfl, ?_⟩
  intro h
  simp [AggregateRoot.applyChange, AggregateRoot.applyInternalEventChanges,
    AggregateRoot.pullDomainEvents, h]

/-- Witness for C1 at a concrete aggregate and event. -/
theorem applyChange_pull_spec_witness :
    ((AggregateRoot.fresh (P := Nat) [] ⟨1, "agg-1"⟩ 0 none none 0).applyChange
        (fun s _ => s + 1)
        { id := 7, eventType := 2, aggregateId := .prim "agg-1" }
      ).pullDomainEvents.1
      = [{ id := 7, eventType := 2, aggregateId := .prim "agg-1" }] :=
  (applyChange_pull_spec (fun s _ => s + 1)
    (AggregateRoot.fresh [] ⟨1, "agg-1"⟩ 0 none none 0)
    { id := 7, eventType := 2, aggregateId := .prim "agg-1" }).2.2.2 rfl

/-- C2: `loadsFromHistory(history, C)` iterates the events in stream order,
skips every instance of `C`, runs the subclass `apply` hook on each other
event, and never appends to the uncommitted-events ledger; on a fresh
aggregate, `pullDomainEvents()` afterwards returns `[]`. -/
theorem loadsFromHistory_spec {P : Type} (hook : P → DomainEvent → P)
    (a : AggregateRoot P) (history : List DomainEvent)
    (c : DomainEvent → Bool) :
    (a.loadsFromHistory hook history c).domainEvents = a.domainEvents
    ∧ (a.loadsFromHistory hook history c).props
        = (history.filter (fun e => !(c e))).foldl hook a.props
    ∧ (a.domainEvents = [] →
        (a.loadsFromHistory hook history c).pullDomainEvents.1 = []) := by
  refine ⟨?_, ?_, ?_⟩
  · rw [loadsFromHistory_eq]
  · rw [loadsFromHistory_eq]
  · intro h
    simp [AggregateRoot.pullDomainEvents, loadsFromHistory_eq, h]

/-- Witness for C2 at a concrete aggregate and three-event history whose
first event is the creation event. -/
theorem loadsFromHistory_spec_witness :
    ((AggregateRoot.fresh (P := Nat) [] ⟨1, "agg-1"⟩ 0 none none 0).loadsFromHistory
        (fun s e => s + e.id)
        [{ id := 1, eventType := 0, aggregateId := .prim "agg-1" },
         { id := 2, eventType := 3, aggregateId := .prim "agg-1" },
         { id := 3, eventType := 4, aggregateId := .prim "agg-1" }]
        (fun e => e.eventType == 0)).pullDomainEvents.1 = [] :=
  (loadsFromHistory_spec (fun s e => s + e.id)
    (AggregateRoot.fresh [] ⟨1, "agg-1"⟩ 0 none none 0)
    [{ id := 1, eventType := 0, aggregateId := .prim "agg-1" },
     { id := 2, eventType := 3, aggregateId := .prim "agg-1" },
     { id := 3, eventType := 4, aggregateId := .prim "agg-1" }]
    (fun e => e.eventType == 0)).2.2 rfl

/-- C3: `publishEvents` hands the bus every ledger event marked committed
(each event the bus receives reports `isCommitted() = true`), dispatches
the whole ledger in order, and clears the ledger afterwards, so a
subsequent `pullDomainEvents()` returns `[]`. -/
theorem publishEvents_spec {P : Type} (a : AggregateRoot P) :
    a.publishEvents.2.1 = a.domainEvents.map DomainEvent.commit
    ∧ a.publishEvents.2.1.all (fun e => e.isCommitted) = true
    ∧ a.publishEvents.2.1.length = a.domainEvents.length
    ∧ a.publishEvents.2.2.domainEvents = []
    ∧ a.publishEvents.2.2.pullDomainEvents.1 = [] := by
  refine ⟨rfl, ?_, by simp [AggregateRoot.publishEvents], rfl, rfl⟩
  simp [AggregateRoot.publishEvents, List.all_eq_true, DomainEvent.commit,
    DomainEvent.isCommitted]

/-- A concrete valid entity used by witnesses: no accumulated errors. -/
def sampleEntityA : EntityM Nat :=
  { id := ⟨1, "id-1"⟩, errors := [], createdAt := 0, updatedAt := 0
    props := 7 }

/-- A second concrete valid entity sharing `sampleEntityA`'s identifier
object but with different props and timestamps. -/
def sampleEntityB : EntityM Nat :=
  { id := ⟨1, "id-1"⟩, errors := [], createdAt := 5, updatedAt := 6
    props := 99 }

/-- C4: for every valid entity, `equals(other)` is attached by `isValid()`
and returns true iff `other` is neither `null` nor `undefined` and
`this.id === other.id` (reference equality of the two identifier value
objects), regardless of any difference between props. -/
theorem entity_equals_spec {P : Type} (a : EntityM P)
    (b : Option (EntityM P)) (h : a.isValid = true) :
    a.validCapabilities.isSome = true
    ∧ a.validCapabilities.map (fun caps => caps.equals b)
        = some (a.internalEquals b)
    ∧ (a.internalEquals b = true
        ↔ b ≠ none ∧ b.map (fun o => o.id.ref) = some a.id.ref)
    ∧ (∀ (p : P) (o : EntityM P),
        a.internalEquals (some { o with props := p })
          = a.internalEquals (some o)) := by
  have he : ¬ a.errors.length > 0 := by
    intro hgt
    simp [EntityM.isValid, hgt] at h
  refine ⟨?_, ?_, ?_, ?_⟩
  · simp [EntityM.validCapabilities, he]
  · simp [EntityM.validCapabilities, he]
  · cases b with
    | none => simp [EntityM.internalEquals]
    | some o =>
      simp [EntityM.internalEquals]
      exact eq_comm
  · intro p o
    rfl

/-- Witness for C4: a valid entity whose capabilities are attached and
whose `equals` agrees with identity equality against an entity that shares
the identifier object but differs in props. -/
theorem entity_equals_spec_witness :
    sampleEntityA.isValid = true
    ∧ sampleEntityA.validCapabilities.isSome = true
    ∧ sampleEntityA.internalEquals (some sampleEntityB) = true :=
  ⟨rfl,
   (entity_equals_spec sampleEntityA (some sampleEntityB) rfl).1,
   (entity_equals_spec sampleEntityA (some sampleEntityB) rfl).2.2.1.mpr
     ⟨by simp, rfl⟩⟩

/-- A subclass `validate` hook that adds no domain rules. -/
def noExtraRules : VOProps → List JsError := fun _ => []

/-- C5: `forceUnpack()` returns the unpacked value when the accumulated
error list is empty and otherwise throws the full accumulated list; a
primitive-wrapped value object built from `"x"` force-unpacks to `"x"`,
while one built from `""` has `isValid()` false and `forceUnpack()` throws
the accumulated errors. -/
theorem forceUnpack_spec (vo : ValueObjectM) :
    (vo.errors = [] → vo.forceUnpack = .ok vo.internalUnpack)
    ∧ (vo.errors ≠ [] → vo.forceUnpack = .error vo.errors)
    ∧ (ValueObject.create noExtraRules (.domainPrimitive "x")).forceUnpack
        = .ok (.prim "x")
    ∧ (ValueObject.create noExtraRules (.domainPrimitive "")).isValid = false
    ∧ (ValueObject.create noExtraRules (.domainPrimitive "")).forceUnpack
        = .error [.argumentNotProvided "Properties cannot be empty"] := by
  refine ⟨?_, ?_, rfl, rfl, rfl⟩
  · intro h
    simp [ValueObjectM.forceUnpack, h]
  · intro h
    have hl : vo.errors.length > 0 := List.length_pos.mpr h
    simp [ValueObjectM.forceUnpack, hl]

/-- Witness for C5 at the two concrete primitive-wrapped value objects. -/
theorem forceUnpack_spec_witness :
    (ValueObject.create noExtraRules (.domainPrimitive "x")).forceUnpack
      = .ok (ValueObject.create noExtraRules
          (.domainPrimitive "x")).internalUnpack
    ∧ (ValueObject.create noExtraRules (.domainPrimitive "")).forceUnpack
      = .error (ValueObject.create noExtraRules
          (.domainPrimitive "")).errors :=
  ⟨(forceUnpack_spec (ValueObject.create noExtraRules
      (.domainPrimitive "x"))).1 rfl,
   (forceUnpack_spec (ValueObject.create noExtraRules
      (.domainPrimitive ""))).2.1 (by decide)⟩

/-- C6: `EventBusRouter.route(e)` dispatches `e` to exactly one of the two
buses, decided purely by `isCommitted()`: the uncommitted-events bus when
false, the committed-events bus when true, never both (exactly one bus
grows, by exactly one event). -/
theorem route_spec (buses : RouterBuses) (e : DomainEvent) :
    (e.isCommitted = false → EventBusRouter.route buses e
        = { buses with uncommitted := buses.uncommitted ++ [e] })
    ∧ (e.isCommitted = true → EventBusRouter.route buses e
        = { buses with committed := buses.committed ++ [e] })
    ∧ (EventBusRouter.route buses e).uncommitted.length
        + (EventBusRouter.route buses e).committed.length
      = buses.uncommitted.length + buses.committed.length + 1 := by
  refine ⟨?_, ?_, ?_⟩
  · intro h
    simp [EventBusRouter.route, h]
  · intro h
    simp [EventBusRouter.route, h]
  · by_cases h : e.isCommitted = true <;>
      simp [EventBusRouter.route, h] <;> omega

/-- An uncommitted concrete event for the router witness. -/
def sampleEventU : DomainEvent :=
  { id := 1, eventType := 1, aggregateId := .prim "agg-1" }

/-- A committed concrete event for the router witness. -/
def sampleEventC : DomainEvent :=
  { id := 2, eventType := 1, aggregateId := .prim "agg-1"
    committed := true }

/-- Witness for C6: routing one uncommitted and one committed event into
empty buses. -/
theorem route_spec_witness :
    EventBusRouter.route ⟨[], []⟩ sampleEventU
      = { uncommitted := [sampleEventU], committed := [] }
    ∧ EventBusRouter.route ⟨[], []⟩ sampleEventC
      = { uncommitted := [], committed := [sampleEventC] } :=
  ⟨(route_spec ⟨[], []⟩ sampleEventU).1 rfl,
   (route_spec ⟨[], []⟩ sampleEventC).2.1 rfl⟩

/-- C7: `commitEvents()` marks every ledger event committed and changes
nothing else — the ledger keeps the same events in the same order (same
length, not cleared), the rest of the aggregate is untouched, and a second
`commitEvents()` is a no-op because `commit()` is idempotent. -/
theorem commitEvents_spec {P : Type} (a : AggregateRoot P) :
    a.commitEvents
        = { a with domainEvents := a.domainEvents.map DomainEvent.commit }
    ∧ a.commitEvents.domainEvents.length = a.domainEvents.length
    ∧ a.commitEvents.domainEvents.all (fun e => e.isCommitted) = true
    ∧ a.commitEvents.commitEvents = a.commitEvents
    ∧ a.commitEvents.version = a.version
    ∧ a.commitEvents.props = a.props
    ∧ a.commitEvents.id = a.id := by
  have hcc : ∀ e, DomainEvent.commit (DomainEvent.commit e)
      = DomainEvent.commit e := fun _ => rfl
  refine ⟨rfl, by simp [AggregateRoot.commitEvents], ?_, ?_, rfl, rfl, rfl⟩
  · simp [AggregateRoot.commitEvents, List.all_eq_true, DomainEvent.commit,
      DomainEvent.isCommitted]
  · simp [AggregateRoot.commitEvents, List.map_map, Function.comp_def, hcc]

/-- C8: entity construction with a props object of more than 50 keys makes
`isValid()` false, never attaches the `equals`/`getPropsCopy`/`toObject`
capabilities, and records the "argument out of range" error kind — a kind
distinct from "argument not provided" (recorded for empty props) and
"argument invalid" (recorded for non-object props). -/
theorem entity_too_many_props_spec (hookErrors : List JsError) (id : IdRef)
    (keys : List String) (c u : Option Nat) (now : Nat)
    (h : keys.length > 50) :
    (Entity.create hookErrors id (.obj keys) c u now).isValid = false
    ∧ (Entity.create hookErrors id (.obj keys) c u now).validCapabilities
        = none
    ∧ JsError.argumentOutOfRange
          "Entity props should not have more than 50 properties"
        ∈ (Entity.create hookErrors id (.obj keys) c u now).errors
    ∧ Entity.validateProps (.obj keys)
        = [.argumentOutOfRange
            "Entity props should not have more than 50 properties"]
    ∧ (∀ m m',
        JsError.argumentOutOfRange m ≠ JsError.argumentNotProvided m'
        ∧ JsError.argumentOutOfRange m ≠ JsError.argumentInvalid m')
    ∧ Entity.validateProps (.obj [])
        = [.argumentNotProvided "Entity props should not be empty"]
    ∧ Entity.validateProps (.str "x")
        = [.argumentInvalid "Entity props should be an object"] := by
  have hne : keys.isEmpty = false := by
    cases keys with
    | nil => simp at h
    | cons x xs => rfl
  have hval : Entity.validateProps (.obj keys)
      = [.argumentOutOfRange
          "Entity props should not have more than 50 properties"] := by
    simp [Entity.validateProps, guardIsEmptyProps, typeofIsObject,
      objectKeysLength, MAX_PROPS, h, hne]
  refine ⟨?_, ?_, ?_, hval, ?_, rfl, rfl⟩
  · simp [Entity.create, EntityM.isValid, hval]
  · simp [Entity.create, EntityM.validCapabilities, hval]
  · simp [Entity.create, hval]
  · intro m m'
    exact ⟨fun hx => JsError.noConfusion hx, fun hx => JsError.noConfusion hx⟩

/-- A concrete identifier reference for witnesses. -/
def sampleId : IdRef := ⟨9, "id-9"⟩

/-- Witness for C8 at a 51-key props object. -/
theorem entity_too_many_props_spec_witness :
    (List.replicate 51 "k").length > 50
    ∧ (Entity.create [] sampleId (.obj (List.replicate 51 "k"))
        none none 0).isValid = false :=
  ⟨by simp, (entity_too_many_props_spec [] sampleId (List.replicate 51 "k")
    none none 0 (by simp)).1⟩

/-- C9: constructing a domain event from an empty properties bag raises an
`ArgumentNotProvidedException` synchronously at the construction call site
(no event value is produced and no error is merely accumulated). -/
theorem domainEvent_empty_props_spec (className : String)
    (eventId eventType : Nat) (bag : DomainEventBag)
    (h : bag.isEmptyBag = true) :
    DomainEvent.create className eventId eventType bag
      = .error (.single (.argumentNotProvided
          (className ++ " props should not be empty"))) := by
  simp [DomainEvent.create, h]

/-- Witness for C9 at a concrete empty properties bag. -/
theorem domainEvent_empty_props_spec_witness :
    DomainEvent.create "UserCreatedEvent" 1 2 ⟨none, none, []⟩
      = .error (.single (.argumentNotProvided
          "UserCreatedEvent props should not be empty")) :=
  domainEvent_empty_props_spec "UserCreatedEvent" 1 2 ⟨none, none, []⟩ rfl

/-- C10: `version` is 0 after construction and no sequence of core
operations (`applyChange`, `loadsFromHistory`, `pullDomainEvents`,
`commitEvents`, `clearEvents`, `publishEvents`) ever modifies it. -/
theorem version_frame_spec {P : Type} (propsErrors : List JsError)
    (id : IdRef) (props : P) (c u : Option Nat) (now : Nat)
    (a : AggregateRoot P) (ops : List (AggOp P)) :
    (AggregateRoot.fresh propsErrors id props c u now).version = 0
    ∧ (a.runOps ops).version = a.version := by
  refine ⟨rfl, ?_⟩
  induction ops generalizing a with
  | nil => rfl
  | cons op rest ih =>
    calc ((a.runOp op).runOps rest).version
        = (a.runOp op).version := ih (a.runOp op)
      _ = a.version := runOp_version a op

end DDD
